import Mathlib

/-!
Shallow embedding of go-zero's core circuit-breaker components:

* `collection.RollingWindow` (time-bucketed ring of `Bucket`s) — package
  `collection`, with `window`, `Bucket`, `span`, `updateOffset`, `Add`,
  `Reduce`;
* `breaker.googleBreaker` — the adaptive admission controller (`accept`,
  `history`, `doReq`, `markSuccess`, `markFailure`);
* `bloom.Filter` — `getLocations` and `redisBitSet.buildOffsetArgs`.

Modelling conventions: Go `float64` values are modelled as `ℚ` (the code only
ever adds 0.0/1.0 and computes one ratio, so exact rational arithmetic is the
intended semantics); Go `int`/`int64`/`time.Duration` are modelled as `ℤ` with
Go's truncated division `/` and remainder `%` rendered as `Int.tdiv` and
`Int.tmod`.  The relative clock (`timex.Now()`) is passed explicitly as a
`now : ℤ` argument; `timex.Since(d) = now - d`.  The probability gate
(`proba.TrueOnProba`) is passed as an oracle `gate : ℚ → Bool`.  Mutation is
modelled by state passing; a Go `panic` is modelled as a distinguished
outcome constructor.
-/

/-- Go float64 → int64 conversion: truncation toward zero (used by
`history()` in `accepts += int64(b.Sum)`): on a reduced rational this is
the truncated division of numerator by denominator. -/
def ratTrunc (q : ℚ) : ℤ := q.num.tdiv q.den

/-- Go `math.Max` on two (non-NaN) values: the larger of the two. -/
def mathMax (a b : ℚ) : ℚ := if a ≤ b then b else a

/-- `collection.Bucket`: running sum and count of recorded outcomes. -/
structure Bucket where
  Sum : ℚ
  Count : ℤ
deriving DecidableEq, Repr

/-- `Bucket.add`: `b.Sum += v; b.Count++`. -/
def Bucket.add (b : Bucket) (v : ℚ) : Bucket :=
  { Sum := b.Sum + v, Count := b.Count + 1 }

/-- `Bucket.reset`: `b.Sum = 0; b.Count = 0`. -/
def Bucket.reset (_b : Bucket) : Bucket :=
  { Sum := 0, Count := 0 }

/-- `collection.window`: the bucket ring. The Go slice of length `size`,
always indexed modulo `size`, is modelled as a total map from `ℤ`;
every access in the source goes through `% size`, which is preserved here. -/
structure Window where
  buckets : ℤ → Bucket
  size : ℤ

/-- `window.add(offset, v)`: `w.buckets[offset%w.size].add(v)`. -/
def Window.add (w : Window) (offset : ℤ) (v : ℚ) : Window :=
  { w with buckets := fun j =>
      if j = offset.tmod w.size then (w.buckets (offset.tmod w.size)).add v
      else w.buckets j }

/-- `window.resetBucket(offset)`: `w.buckets[offset%w.size].reset()`. -/
def Window.resetBucket (w : Window) (offset : ℤ) : Window :=
  { w with buckets := fun j =>
      if j = offset.tmod w.size then (w.buckets (offset.tmod w.size)).reset
      else w.buckets j }

/-- `window.reduce(start, count, fn)` visits `w.buckets[(start+i)%w.size]`
for `i = 0 .. count-1`; modelled by the list of visited buckets, in visit
order (a fold of `fn` over this list is the effect of the Go loop). -/
def Window.reduceList (w : Window) (start count : ℤ) : List Bucket :=
  (List.range count.toNat).map (fun i : ℕ => w.buckets ((start + (i : ℤ)).tmod w.size))

/-- `collection.RollingWindow` state (lock omitted: atomic steps are modelled
as pure state transitions). -/
structure RollingWindow where
  size : ℤ
  win : Window
  interval : ℤ
  offset : ℤ
  ignoreCurrent : Bool
  lastTime : ℤ

/-- The state built by `NewRollingWindow` when `size ≥ 1` (all buckets zero,
`offset = 0`, `lastTime = timex.Now()`, `ignoreCurrent` from the options). -/
def initialWindow (size interval t0 : ℤ) (ig : Bool) : RollingWindow :=
  { size := size
    win := { buckets := fun _ => { Sum := 0, Count := 0 }, size := size }
    interval := interval
    offset := 0
    ignoreCurrent := ig
    lastTime := t0 }

/-- `NewRollingWindow(size, interval, opts...)`: panics (`none`) when
`size < 1`, else returns the initial window. -/
def NewRollingWindow (size interval t0 : ℤ) (ig : Bool) : Option RollingWindow :=
  if size < 1 then none else some (initialWindow size interval t0 ig)

/-- `RollingWindow.span()`:
`offset := int(timex.Since(rw.lastTime) / rw.interval)`;
return `offset` if `0 ≤ offset < rw.size`, else `rw.size`. -/
def RollingWindow.span (rw : RollingWindow) (now : ℤ) : ℤ :=
  let o := (now - rw.lastTime).tdiv rw.interval
  if 0 ≤ o ∧ o < rw.size then o else rw.size

/-- The reset loop of `updateOffset`:
`for i := 0; i < span; i++ { rw.win.resetBucket((offset + i + 1) % rw.size) }`,
applied sequentially for `i = 0 .. n-1`. -/
def resetLoop (size : ℤ) (offset : ℤ) (w : Window) : ℕ → Window
  | 0 => w
  | n + 1 => (resetLoop size offset w n).resetBucket ((offset + (n : ℤ) + 1).tmod size)

/-- `RollingWindow.updateOffset()`: if `span ≤ 0` do nothing; otherwise reset
the `span` buckets after `offset`, advance `offset = (offset+span) % size`,
and re-align `lastTime = now - (now - lastTime) % interval`. -/
def RollingWindow.updateOffset (rw : RollingWindow) (now : ℤ) : RollingWindow :=
  let sp := rw.span now
  if sp ≤ 0 then rw
  else
    { rw with
      win := resetLoop rw.size rw.offset rw.win sp.toNat
      offset := (rw.offset + sp).tmod rw.size
      lastTime := now - (now - rw.lastTime).tmod rw.interval }

/-- `RollingWindow.Add(v)`: `rw.updateOffset(); rw.win.add(rw.offset, v)`. -/
def RollingWindow.Add (rw : RollingWindow) (v : ℚ) (now : ℤ) : RollingWindow :=
  let rw' := rw.updateOffset now
  { rw' with win := rw'.win.add rw'.offset v }

/-- `RollingWindow.Reduce(fn)`: computes `span`, then
`diff = size-1` if `span == 0 && ignoreCurrent` else `diff = size - span`;
if `diff > 0`, visits `diff` buckets starting at `(offset+span+1) % size`.
Modelled by the list of visited buckets, in visit order; the state is
not modified (the Go method only takes a read lock). -/
def RollingWindow.reduceBuckets (rw : RollingWindow) (now : ℤ) : List Bucket :=
  let sp := rw.span now
  let diff : ℤ := if sp = 0 ∧ rw.ignoreCurrent then rw.size - 1 else rw.size - sp
  if 0 < diff then
    rw.win.reduceList ((rw.offset + sp + 1).tmod rw.size) diff
  else []

/-! ## breaker.googleBreaker -/

/-- `k = 1.5`: the weight applied to accepted requests. -/
def k : ℚ := 3 / 2

/-- `protection = 5`: attempts exempted from the drop-ratio numerator. -/
def protection : ℤ := 5

/-- `googleBreaker.history()`: Reduce over the rolling window with
`accepts += int64(b.Sum); total += b.Count`. -/
def googleHistory (rw : RollingWindow) (now : ℤ) : ℤ × ℤ :=
  (rw.reduceBuckets now).foldl
    (fun acc b => (acc.1 + ratTrunc b.Sum, acc.2 + b.Count)) (0, 0)

/-- The drop ratio computed inside `googleBreaker.accept()`:
`math.Max(0, (float64(total-protection) - k*float64(accepts)) / float64(total+1))`. -/
def dropRatioQ (accepts total : ℤ) : ℚ :=
  mathMax 0 ((((total - protection : ℤ) : ℚ) - k * (accepts : ℚ)) / ((total + 1 : ℤ) : ℚ))

/-- The decision part of `googleBreaker.accept()` given the history pair:
admit (`true`) if the drop ratio is ≤ 0, otherwise reject exactly when the
probability gate fires. -/
def acceptWith (accepts total : ℤ) (gate : ℚ → Bool) : Bool :=
  let dr := dropRatioQ accepts total
  if dr ≤ 0 then true else ! gate dr

/-- `googleBreaker.accept()`: `true` = return `nil` (admit), `false` =
return `ErrServiceUnavailable`. -/
def googleAccept (rw : RollingWindow) (now : ℤ) (gate : ℚ → Bool) : Bool :=
  let h := googleHistory rw now
  acceptWith h.1 h.2 gate

/-- `googleBreaker.markSuccess()`: `b.stat.Add(1)`. -/
def markSuccess (rw : RollingWindow) (now : ℤ) : RollingWindow :=
  rw.Add 1 now

/-- `googleBreaker.markFailure()`: `b.stat.Add(0)`. -/
def markFailure (rw : RollingWindow) (now : ℤ) : RollingWindow :=
  rw.Add 0 now

/-- Go `error` values seen by the breaker: `none` models a nil error. -/
inductive GoErr where
  | serviceUnavailable
  | other (code : ℕ)
deriving DecidableEq, Repr

/-- Behaviour of the wrapped `req func() error`: either a normal return
(of a possibly-nil error) or a panic carrying a fault value. -/
inductive ReqBehavior (P : Type) where
  | ret (e : Option GoErr)
  | panics (p : P)

/-- Observable outcome of `googleBreaker.doReq`. -/
inductive DoReqOutcome (P : Type) where
  | rejected (e : Option GoErr)
  | fellBack (e : Option GoErr)
  | returned (e : Option GoErr)
  | panicked (p : P)
deriving DecidableEq, Repr

/-- `googleBreaker.doReq(req, fallback, acceptable)`: if `accept()` errs,
invoke the fallback on that error when given, else return the error; if
admitted, run `req` — on panic, `markFailure` then re-panic (the deferred
recover); on normal return `e`, `markSuccess` when `acceptable(e)` else
`markFailure`, and return `e` unchanged. Result: (new window state, outcome). -/
def doReq {P : Type} (rw : RollingWindow) (now : ℤ) (gate : ℚ → Bool)
    (req : ReqBehavior P) (fallback : Option (Option GoErr → Option GoErr))
    (acceptable : Option GoErr → Bool) : RollingWindow × DoReqOutcome P :=
  if googleAccept rw now gate then
    match req with
    | .panics p => (markFailure rw now, .panicked p)
    | .ret e =>
      if acceptable e then (markSuccess rw now, .returned e)
      else (markFailure rw now, .returned e)
  else
    match fallback with
    | some fb => (rw, .fellBack (fb (some .serviceUnavailable)))
    | none => (rw, .rejected (some .serviceUnavailable))

/-! ## bloom.Filter -/

/-- `maps = 14`: number of hash locations per element. -/
def maps : ℕ := 14

/-- `Filter.getLocations(data)`: for `i = 0 .. maps-1`,
`locations[i] = uint(hash.Hash(append(data, byte(i))) % uint64(f.bits))`.
The murmur hash is an oracle `hashFn`; `byte(i)` is `i % 256` (here `i < 14`
so it is `i` itself). -/
def getLocations (hashFn : List ℕ → ℕ) (bits : ℕ) (data : List ℕ) : List ℕ :=
  (List.range maps).map (fun i => hashFn (data ++ [i % 256]) % bits)

/-- `redisBitSet.buildOffsetArgs(offsets)`: error on any offset `≥ bits`,
else the decimal renderings of the offsets, in order. -/
def buildOffsetArgs (bits : ℕ) : List ℕ → Except Unit (List String)
  | [] => .ok []
  | o :: rest =>
    if o ≥ bits then .error ()
    else match buildOffsetArgs bits rest with
      | .error e => .error e
      | .ok args => .ok (toString o :: args)

/-- A concrete test state: a one-bucket window whose bucket holds six
recorded failures (`Sum = 0`, `Count = 6`), as after six `markFailure`
calls within the bucket's interval. -/
def failWindow6 : RollingWindow :=
  { size := 1
    win := { buckets := fun _ => { Sum := 0, Count := 6 }, size := 1 }
    interval := 10
    offset := 0
    ignoreCurrent := false
    lastTime := 0 }

/-! ## Reachable states -/

/-- States of a `RollingWindow` reachable from `NewRollingWindow size interval`
(constructed at relative time `t0`) by any sequence of `Add` calls. -/
inductive WindowReachable (size interval t0 : ℤ) : RollingWindow → Prop where
  | init (ig : Bool) (h : 1 ≤ size) :
      WindowReachable size interval t0 (initialWindow size interval t0 ig)
  | add (rw : RollingWindow) (v : ℚ) (now : ℤ) :
      WindowReachable size interval t0 rw →
      WindowReachable size interval t0 (rw.Add v now)

/-- States of a `googleBreaker`'s rolling window: built by `newGoogleBreaker`
(no `IgnoreCurrentBucket` option, so `ignoreCurrent = false`) and updated only
through `markSuccess` (`Add 1`) and `markFailure` (`Add 0`). -/
inductive BreakerReachable : RollingWindow → Prop where
  | init (size interval t0 : ℤ) (h : 1 ≤ size) :
      BreakerReachable (initialWindow size interval t0 false)
  | mark (rw : RollingWindow) (v : ℚ) (now : ℤ) (hv : v = 0 ∨ v = 1) :
      BreakerReachable rw → BreakerReachable (rw.Add v now)

/-- `n` successive `history()` calls (each a `Reduce`) on the same breaker
window with no intervening `Add` and no elapsed relative time, threading the
(unchanged) state through and collecting each call's aggregates. -/
def historyIter (now : ℤ) : ℕ → RollingWindow → RollingWindow × List (ℤ × ℤ)
  | 0, rw => (rw, [])
  | n + 1, rw =>
    let h := googleHistory rw now
    let r := historyIter now n rw
    (r.1, h :: r.2)

/-! ## General helper lemmas -/

/-- `mathMax` agrees with the lattice `max` on `ℚ`. -/
theorem mathMax_eq_max (a b : ℚ) : mathMax a b = max a b := by
  unfold mathMax
  split <;> rename_i h
  · exact (max_eq_right h).symm
  · exact (max_eq_left (le_of_not_le h)).symm

/-- `dropRatioQ` written with the lattice `max` and explicit constants. -/
theorem dropRatioQ_eq (accepts total : ℤ) :
    dropRatioQ accepts total
      = max 0 (((total : ℚ) - 5 - (3 / 2) * (accepts : ℚ)) / ((total : ℚ) + 1)) := by
  unfold dropRatioQ k protection
  rw [mathMax_eq_max]
  push_cast
  ring_nf

/-- `dropRatioQ` on the empty history. -/
theorem dropRatioQ_zero_zero : dropRatioQ 0 0 = 0 := by
  rw [dropRatioQ_eq]
  norm_num

/-! ## C1 -/

/-- C1: for every pair of non-negative integers `(accepts, total)` produced by
`history()`, `accept()` computes
`dropRatio = max(0, (total − protection − k·accepts)/(total+1))` with `k = 1.5`
and `protection = 5`; whenever that ratio is ≤ 0 it admits for every possible
probability-gate behaviour (the gate is not consulted); and at
`accepts = 50`, `total = 100` the ratio is exactly `20/101`. -/
theorem c1_accept_formula_and_unconditional_admit :
    (∀ accepts total : ℤ,
        dropRatioQ accepts total
          = max 0 (((total : ℚ) - 5 - (3 / 2) * (accepts : ℚ)) / ((total : ℚ) + 1))) ∧
    (∀ accepts total : ℤ, 0 ≤ accepts → 0 ≤ total →
        dropRatioQ accepts total ≤ 0 →
        ∀ gate : ℚ → Bool, acceptWith accepts total gate = true) ∧
    dropRatioQ 50 100 = 20 / 101 := by
  refine ⟨dropRatioQ_eq, ?_, ?_⟩
  · intro accepts total _ _ hdr gate
    unfold acceptWith
    simp only
    rw [if_pos hdr]
  · rw [dropRatioQ_eq]
    norm_num

/-- Witness for C1 at `accepts = total = 0` (empty history): the ratio is ≤ 0
and admission happens for an always-reject gate. -/
theorem c1_witness :
    (0 : ℤ) ≤ 0 ∧ dropRatioQ 0 0 ≤ 0 ∧ acceptWith 0 0 (fun _ => true) = true :=
  ⟨le_refl 0, le_of_eq dropRatioQ_zero_zero,
    c1_accept_formula_and_unconditional_admit.2.1 0 0 (le_refl 0) (le_refl 0)
      (le_of_eq dropRatioQ_zero_zero) (fun _ => true)⟩

/-! ## C5 -/

/-- C5: `dropRatio` is monotone: for fixed `total ≥ 0` it is non-increasing in
`accepts`, and for fixed `accepts ≥ 0` it is non-decreasing in `total`. -/
theorem c5_dropRatio_monotone :
    (∀ accepts accepts' total : ℤ, 0 ≤ total → 0 ≤ accepts → accepts ≤ accepts' →
        dropRatioQ accepts' total ≤ dropRatioQ accepts total) ∧
    (∀ accepts total total' : ℤ, 0 ≤ accepts → 0 ≤ total → total ≤ total' →
        dropRatioQ accepts total ≤ dropRatioQ accepts total') := by
  constructor
  · intro a a' t ht _ haa
    rw [dropRatioQ_eq, dropRatioQ_eq]
    have ht1 : (0 : ℚ) < (t : ℚ) + 1 := by
      have : (0 : ℚ) ≤ (t : ℚ) := by exact_mod_cast ht
      linarith
    have haa' : (a : ℚ) ≤ (a' : ℚ) := by exact_mod_cast haa
    refine max_le_max (le_refl 0) (div_le_div_of_nonneg_right ?_ ht1.le)
    linarith
  · intro a t t' ha ht htt
    rw [dropRatioQ_eq, dropRatioQ_eq]
    have ha' : (0 : ℚ) ≤ (a : ℚ) := by exact_mod_cast ha
    have ht0 : (0 : ℚ) ≤ (t : ℚ) := by exact_mod_cast ht
    have htt' : (t : ℚ) ≤ (t' : ℚ) := by exact_mod_cast htt
    have h1 : (0 : ℚ) < (t : ℚ) + 1 := by linarith
    have h2 : (0 : ℚ) < (t' : ℚ) + 1 := by linarith
    refine max_le_max (le_refl 0) ?_
    rw [div_le_div_iff₀ h1 h2]
    nlinarith [mul_nonneg (by linarith : (0 : ℚ) ≤ 6 + (3 / 2) * (a : ℚ))
      (by linarith : (0 : ℚ) ≤ (t' : ℚ) - (t : ℚ))]

/-- Witness for C5 at `(accepts, accepts') = (1, 2)`, `total = 5` and
`(total, total') = (5, 9)`, `accepts = 1`. -/
theorem c5_witness :
    (0 : ℤ) ≤ 5 ∧ (0 : ℤ) ≤ 1 ∧ (1 : ℤ) ≤ 2 ∧ (5 : ℤ) ≤ 9 ∧
    dropRatioQ 2 5 ≤ dropRatioQ 1 5 ∧ dropRatioQ 1 5 ≤ dropRatioQ 1 9 :=
  ⟨by decide, by decide, by decide, by decide,
    c5_dropRatio_monotone.1 1 2 5 (by decide) (by decide) (by decide),
    c5_dropRatio_monotone.2 1 5 9 (by decide) (by decide) (by decide)⟩

/-! ## C10 -/

/-- `buildOffsetArgs` succeeds on any offset list that stays below `bits`. -/
theorem buildOffsetArgs_ok (bits : ℕ) :
    ∀ l : List ℕ, (∀ o ∈ l, o < bits) →
      ∃ args, buildOffsetArgs bits l = Except.ok args := by
  intro l
  induction l with
  | nil => intro _; exact ⟨[], rfl⟩
  | cons o rest ih =>
    intro h
    obtain ⟨args, hargs⟩ := ih (fun x hx => h x (List.mem_cons_of_mem o hx))
    refine ⟨toString o :: args, ?_⟩
    unfold buildOffsetArgs
    rw [if_neg (by exact not_le.mpr (h o (List.mem_cons_self o rest))), hargs]

/-- C10: for `bits > 0`, `getLocations` returns exactly `maps = 14` offsets,
each strictly below `bits`, so `buildOffsetArgs` never returns
`ErrTooLargeOffset` on locations produced by `Filter.Add`/`Filter.Exists`. -/
theorem c10_getLocations_safe (hashFn : List ℕ → ℕ) (bits : ℕ) (data : List ℕ)
    (hb : 0 < bits) :
    (getLocations hashFn bits data).length = 14 ∧
    (∀ o ∈ getLocations hashFn bits data, o < bits) ∧
    ∃ args, buildOffsetArgs bits (getLocations hashFn bits data) = Except.ok args := by
  have hmem : ∀ o ∈ getLocations hashFn bits data, o < bits := by
    intro o ho
    unfold getLocations at ho
    obtain ⟨i, _, hi⟩ := List.mem_map.mp ho
    rw [← hi]
    exact Nat.mod_lt _ hb
  refine ⟨?_, hmem, buildOffsetArgs_ok bits _ hmem⟩
  unfold getLocations maps
  rw [List.length_map, List.length_range]

/-- Witness for C10 with a concrete hash oracle, `bits = 16`, `data = [1,2,3]`. -/
theorem c10_witness :
    0 < 16 ∧
    ((getLocations (fun l => l.sum * 37 + 11) 16 [1, 2, 3]).length = 14 ∧
      (∀ o ∈ getLocations (fun l => l.sum * 37 + 11) 16 [1, 2, 3], o < 16) ∧
      ∃ args, buildOffsetArgs 16 (getLocations (fun l => l.sum * 37 + 11) 16 [1, 2, 3])
        = Except.ok args) :=
  ⟨by decide, c10_getLocations_safe (fun l => l.sum * 37 + 11) 16 [1, 2, 3] (by decide)⟩

/-! ## C3 -/

/-- C3: for a RollingWindow with `size = 3`, `interval = 10`, `offset = 0`
(and `ignoreCurrent` unset), when exactly 25 units of relative time have
elapsed since `lastTime`, `span()` returns 2 and `Reduce` visits exactly
`size − span = 1` bucket, namely the one at index
`(offset + span + 1) mod size = 0`, excluding the two skipped slots. -/
theorem c3_span_and_reduce (rw : RollingWindow) (now : ℤ)
    (hs : rw.size = 3) (hws : rw.win.size = 3) (hi : rw.interval = 10)
    (ho : rw.offset = 0) (hig : rw.ignoreCurrent = false)
    (ht : now - rw.lastTime = 25) :
    rw.span now = 2 ∧ rw.reduceBuckets now = [rw.win.buckets 0] := by
  have hspan : rw.span now = 2 := by
    unfold RollingWindow.span
    rw [ht, hi, hs]
    decide
  refine ⟨hspan, ?_⟩
  unfold RollingWindow.reduceBuckets
  rw [hspan, hs, hig, ho]
  norm_num
  unfold Window.reduceList
  rw [hws]
  norm_num [List.range_succ]

/-- Witness for C3: the freshly constructed 3×10 window observed at
relative time 30 with `lastTime = 5`. -/
theorem c3_witness :
    (initialWindow 3 10 5 false).span 30 = 2 ∧
    (initialWindow 3 10 5 false).reduceBuckets 30
      = [(initialWindow 3 10 5 false).win.buckets 0] :=
  c3_span_and_reduce (initialWindow 3 10 5 false) 30 rfl rfl rfl rfl rfl (by decide)

/-! ## C4 -/

/-- C4: for any window of size `N ≥ 1` and interval `I > 0`, once at least
`N·I` of relative time has elapsed since `lastTime`, `span()` is clamped to
`N`, `Reduce` visits zero buckets, and `history()` returns `(0, 0)`. -/
theorem c4_stale_window (rw : RollingWindow) (now : ℤ)
    (hs : 1 ≤ rw.size) (hi : 0 < rw.interval)
    (h : rw.size * rw.interval ≤ now - rw.lastTime) :
    rw.span now = rw.size ∧ rw.reduceBuckets now = [] ∧
    googleHistory rw now = (0, 0) := by
  have he : 0 ≤ now - rw.lastTime :=
    le_trans (mul_nonneg (by omega) hi.le) h
  have hdiv : rw.size ≤ (now - rw.lastTime).tdiv rw.interval := by
    rw [Int.tdiv_eq_ediv he hi.le]
    exact (Int.le_ediv_iff_mul_le hi).mpr h
  have hspan : rw.span now = rw.size := by
    unfold RollingWindow.span
    rw [if_neg]
    intro hc
    omega
  have hred : rw.reduceBuckets now = [] := by
    unfold RollingWindow.reduceBuckets
    rw [hspan]
    have hc : ¬(rw.size = 0 ∧ rw.ignoreCurrent = true) := by
      intro hc
      omega
    simp only [hc, if_false]
    rw [if_neg]
    omega
  exact ⟨hspan, hred, by unfold googleHistory; rw [hred]; rfl⟩

/-- Witness for C4: the 3×10 window observed 30 time units after
construction. -/
theorem c4_witness :
    (initialWindow 3 10 0 false).span 30 = (initialWindow 3 10 0 false).size ∧
    (initialWindow 3 10 0 false).reduceBuckets 30 = [] ∧
    googleHistory (initialWindow 3 10 0 false) 30 = (0, 0) :=
  c4_stale_window (initialWindow 3 10 0 false) 30 (by decide) (by decide) (by decide)

/-! ## C6 machinery -/

/-- The structural invariant maintained by every RollingWindow operation. -/
def WindowInv (size interval t0 : ℤ) (rw : RollingWindow) : Prop :=
  1 ≤ size ∧ rw.size = size ∧ rw.win.size = size ∧ rw.interval = interval ∧
  0 ≤ rw.offset ∧ rw.offset < size ∧ rw.lastTime ≡ t0 [ZMOD interval]

theorem span_nonneg (rw : RollingWindow) (now : ℤ) (hs : 1 ≤ rw.size) :
    0 ≤ rw.span now := by
  simp only [RollingWindow.span]
  split <;> rename_i h
  · exact h.1
  · omega

theorem resetLoop_size (s off : ℤ) (w : Window) (n : ℕ) :
    (resetLoop s off w n).size = w.size := by
  induction n with
  | zero => rfl
  | succ n ih => simpa [resetLoop, Window.resetBucket] using ih

theorem tmod_nonneg_lt (a b : ℤ) (ha : 0 ≤ a) (hb : 0 < b) :
    0 ≤ a.tmod b ∧ a.tmod b < b := by
  rw [Int.tmod_eq_emod ha hb.le]
  exact ⟨Int.emod_nonneg a hb.ne', Int.emod_lt_of_pos a hb⟩

theorem lastTime_realign_modEq (lastTime now interval : ℤ) :
    now - (now - lastTime).tmod interval ≡ lastTime [ZMOD interval] := by
  rw [Int.modEq_iff_dvd]
  refine ⟨-((now - lastTime).tdiv interval), ?_⟩
  have h := Int.tdiv_add_tmod (now - lastTime) interval
  linarith [h]

theorem updateOffset_inv (size interval t0 : ℤ) (rw : RollingWindow) (now : ℤ)
    (h : WindowInv size interval t0 rw) :
    WindowInv size interval t0 (rw.updateOffset now) := by
  obtain ⟨h1, h2, h3, h4, h5, h6, h7⟩ := h
  simp only [RollingWindow.updateOffset]
  split <;> rename_i hsp
  · exact ⟨h1, h2, h3, h4, h5, h6, h7⟩
  · push_neg at hsp
    have hoff := tmod_nonneg_lt (rw.offset + rw.span now) rw.size
      (by omega) (by omega)
    refine ⟨h1, h2, by rw [resetLoop_size]; exact h3, h4, ?_, ?_, ?_⟩
    · simpa [h2] using hoff.1
    · simpa [h2] using hoff.2
    · show now - (now - rw.lastTime).tmod rw.interval ≡ t0 [ZMOD interval]
      rw [h4]
      exact (lastTime_realign_modEq rw.lastTime now interval).trans h7

theorem add_inv (size interval t0 : ℤ) (rw : RollingWindow) (v : ℚ) (now : ℤ)
    (h : WindowInv size interval t0 rw) :
    WindowInv size interval t0 (rw.Add v now) := by
  have h' := updateOffset_inv size interval t0 rw now h
  obtain ⟨h1, h2, h3, h4, h5, h6, h7⟩ := h'
  exact ⟨h1, h2, h3, h4, h5, h6, h7⟩

theorem windowReachable_inv (size interval t0 : ℤ) (rw : RollingWindow)
    (h : WindowReachable size interval t0 rw) :
    WindowInv size interval t0 rw := by
  induction h with
  | init ig hs =>
    exact ⟨hs, rfl, rfl, rfl, le_refl 0, hs, Int.ModEq.refl t0⟩
  | add rw v now _ ih => exact add_inv size interval t0 rw v now ih

/-- C6: every reachable RollingWindow state (after construction and after
every `Add`) satisfies `0 ≤ offset < size`, and `lastTime` stays congruent to
the construction-time `lastTime` modulo `interval` (the re-alignment
`lastTime = now − ((now − lastTime) mod interval)` preserves the bucket
boundary). -/
theorem c6_window_invariants (size interval t0 : ℤ) (rw : RollingWindow)
    (h : WindowReachable size interval t0 rw) :
    0 ≤ rw.offset ∧ rw.offset < rw.size ∧
    rw.lastTime ≡ t0 [ZMOD rw.interval] := by
  obtain ⟨h1, h2, h3, h4, h5, h6, h7⟩ := windowReachable_inv size interval t0 rw h
  exact ⟨h5, by rw [h2]; exact h6, by rw [h4]; exact h7⟩

/-- Witness for C6: a 3×10 window constructed at relative time 7, after one
`Add` at relative time 12. -/
theorem c6_witness :
    0 ≤ ((initialWindow 3 10 7 false).Add 1 12).offset ∧
    ((initialWindow 3 10 7 false).Add 1 12).offset
      < ((initialWindow 3 10 7 false).Add 1 12).size ∧
    ((initialWindow 3 10 7 false).Add 1 12).lastTime
      ≡ 7 [ZMOD ((initialWindow 3 10 7 false).Add 1 12).interval] :=
  c6_window_invariants 3 10 7 _
    (WindowReachable.add _ 1 12 (WindowReachable.init false (by decide)))

/-! ## C2 machinery -/

theorem ratTrunc_nonneg {q : ℚ} (h : 0 ≤ q) : 0 ≤ ratTrunc q :=
  Int.tdiv_nonneg (Rat.num_nonneg.mpr h) (Int.natCast_nonneg q.den)

theorem resetLoop_sum_nonneg (s off : ℤ) (w : Window) (n : ℕ)
    (h : ∀ j, 0 ≤ (w.buckets j).Sum) :
    ∀ j, 0 ≤ ((resetLoop s off w n).buckets j).Sum := by
  induction n with
  | zero => exact h
  | succ n ih =>
    intro j
    simp only [resetLoop, Window.resetBucket]
    split
    · exact le_refl 0
    · exact ih j

theorem updateOffset_sum_nonneg (rw : RollingWindow) (now : ℤ)
    (h : ∀ j, 0 ≤ (rw.win.buckets j).Sum) :
    ∀ j, 0 ≤ ((rw.updateOffset now).win.buckets j).Sum := by
  simp only [RollingWindow.updateOffset]
  split
  · exact h
  · exact resetLoop_sum_nonneg rw.size rw.offset rw.win _ h

theorem add_sum_nonneg (rw : RollingWindow) (v : ℚ) (now : ℤ) (hv : 0 ≤ v)
    (h : ∀ j, 0 ≤ (rw.win.buckets j).Sum) :
    ∀ j, 0 ≤ ((rw.Add v now).win.buckets j).Sum := by
  intro j
  have h' := updateOffset_sum_nonneg rw now h
  show 0 ≤ (((rw.updateOffset now).win.add (rw.updateOffset now).offset v).buckets j).Sum
  simp only [Window.add]
  split
  · exact add_nonneg (h' _) hv
  · exact h' j

theorem breakerReachable_sum_nonneg (rw : RollingWindow)
    (h : BreakerReachable rw) : ∀ j, 0 ≤ (rw.win.buckets j).Sum := by
  induction h with
  | init size interval t0 hs => intro j; exact le_refl 0
  | mark rw v now hv _ ih =>
    exact add_sum_nonneg rw v now (by rcases hv with h | h <;> simp [h]) ih

/-- The fold in `history()` expressed as two list sums. -/
theorem history_foldl_eq (l : List Bucket) (x y : ℤ) :
    l.foldl (fun acc b => (acc.1 + ratTrunc b.Sum, acc.2 + b.Count)) (x, y)
      = (x + (l.map fun b => ratTrunc b.Sum).sum,
         y + (l.map fun b => b.Count).sum) := by
  induction l generalizing x y with
  | nil => simp
  | cons b l ih =>
    simp only [List.foldl_cons, List.map_cons, List.sum_cons, ih]
    rw [Prod.mk.injEq]
    constructor <;> ring

theorem googleHistory_eq_sums (rw : RollingWindow) (now : ℤ) :
    googleHistory rw now
      = (((rw.reduceBuckets now).map fun b => ratTrunc b.Sum).sum,
         ((rw.reduceBuckets now).map fun b => b.Count).sum) := by
  unfold googleHistory
  rw [history_foldl_eq]
  simp

theorem reduceList_mem (w : Window) (start count : ℤ) (b : Bucket)
    (hb : b ∈ w.reduceList start count) : ∃ j, b = w.buckets j := by
  unfold Window.reduceList at hb
  obtain ⟨i, _, hi⟩ := List.mem_map.mp hb
  exact ⟨_, hi.symm⟩

theorem reduceBuckets_cases (rw : RollingWindow) (now : ℤ) :
    rw.reduceBuckets now = [] ∨
    ∃ start count, rw.reduceBuckets now = rw.win.reduceList start count := by
  simp only [RollingWindow.reduceBuckets]
  split <;> split
  · right
    exact ⟨_, _, rfl⟩
  · left
    rfl
  · right
    exact ⟨_, _, rfl⟩
  · left
    rfl

theorem reduceBuckets_mem (rw : RollingWindow) (now : ℤ) (b : Bucket)
    (hb : b ∈ rw.reduceBuckets now) : ∃ j, b = rw.win.buckets j := by
  rcases reduceBuckets_cases rw now with h | ⟨start, count, h⟩
  · rw [h] at hb
    cases hb
  · rw [h] at hb
    exact reduceList_mem rw.win start count b hb

theorem googleHistory_fst_nonneg (rw : RollingWindow) (now : ℤ)
    (h : ∀ j, 0 ≤ (rw.win.buckets j).Sum) :
    0 ≤ (googleHistory rw now).1 := by
  rw [googleHistory_eq_sums]
  apply List.sum_nonneg
  intro x hx
  obtain ⟨b, hb, hxb⟩ := List.mem_map.mp hx
  obtain ⟨j, hj⟩ := reduceBuckets_mem rw now b hb
  rw [← hxb, hj]
  exact ratTrunc_nonneg (h j)

/-- C2: in every reachable state of a googleBreaker's rolling window, if
`history()` reports `total = 0` then the computed drop ratio is 0 and
`accept()` admits for every gate behaviour — the `ErrServiceUnavailable`
branch is unreachable with an empty window. -/
theorem c2_zero_total_always_admits (rw : RollingWindow) (now : ℤ)
    (hr : BreakerReachable rw) (h0 : (googleHistory rw now).2 = 0) :
    dropRatioQ (googleHistory rw now).1 (googleHistory rw now).2 = 0 ∧
    ∀ gate : ℚ → Bool, googleAccept rw now gate = true := by
  have ha : 0 ≤ (googleHistory rw now).1 :=
    googleHistory_fst_nonneg rw now (breakerReachable_sum_nonneg rw hr)
  have haq : (0 : ℚ) ≤ ((googleHistory rw now).1 : ℚ) := by exact_mod_cast ha
  have hdr : dropRatioQ (googleHistory rw now).1 0 = 0 := by
    rw [dropRatioQ_eq]
    apply max_eq_left
    norm_num
    linarith
  rw [h0]
  refine ⟨hdr, fun gate => ?_⟩
  unfold googleAccept
  simp only
  rw [h0]
  unfold acceptWith
  simp only
  rw [if_pos hdr.le]

/-- Witness for C2: a freshly built 1-bucket breaker window observed at
relative time 5. -/
theorem c2_witness :
    (googleHistory (initialWindow 1 10 0 false) 5).2 = 0 ∧
    (dropRatioQ (googleHistory (initialWindow 1 10 0 false) 5).1
        (googleHistory (initialWindow 1 10 0 false) 5).2 = 0 ∧
      ∀ gate : ℚ → Bool, googleAccept (initialWindow 1 10 0 false) 5 gate = true) :=
  ⟨by decide, c2_zero_total_always_admits (initialWindow 1 10 0 false) 5
      (BreakerReachable.init 1 10 0 (by decide)) (by decide)⟩

/-! ## C7 / C9 machinery -/

/-- When no rotation is due (`span ≤ 0`), `Add` leaves every field but the
current bucket untouched. -/
theorem Add_of_span_nonpos (rw : RollingWindow) (v : ℚ) (now : ℤ)
    (h : rw.span now ≤ 0) :
    rw.Add v now = { rw with win := rw.win.add rw.offset v } := by
  unfold RollingWindow.Add RollingWindow.updateOffset
  simp only [if_pos h]

theorem acceptWith_zero_zero (gate : ℚ → Bool) : acceptWith 0 0 gate = true := by
  unfold acceptWith
  simp only
  rw [if_pos dropRatioQ_zero_zero.le]

theorem googleAccept_fresh (gate : ℚ → Bool) :
    googleAccept (initialWindow 2 10 0 false) 3 gate = true := by
  have h : googleHistory (initialWindow 2 10 0 false) 3 = (0, 0) := by decide
  unfold googleAccept
  simp only
  rw [h]
  exact acceptWith_zero_zero gate

theorem googleAccept_failWindow6 (gate : ℚ → Bool) (hg : gate (1 / 7) = true) :
    googleAccept failWindow6 0 gate = false := by
  have h : googleHistory failWindow6 0 = (0, 6) := by decide
  have hd : dropRatioQ 0 6 = 1 / 7 := by
    rw [dropRatioQ_eq]
    norm_num
  unfold googleAccept
  simp only
  rw [h]
  unfold acceptWith
  simp only
  rw [if_neg (by rw [hd]; norm_num), hd, hg]
  rfl

/-- C7: when an admitted request panics, `doReq` records exactly one failure
(`Add(0)`: in the unrotated case the current bucket's Count grows by one, its
Sum is unchanged, every other bucket is untouched) and re-propagates the same
fault unchanged — never converting it into a normal error return and never
skipping the accounting. -/
theorem c7_panic_marks_failure_then_propagates {P : Type} (rw : RollingWindow)
    (now : ℤ) (gate : ℚ → Bool) (fallback : Option (Option GoErr → Option GoErr))
    (acceptable : Option GoErr → Bool) (p : P)
    (hacc : googleAccept rw now gate = true) :
    doReq rw now gate (ReqBehavior.panics p) fallback acceptable
      = (rw.Add 0 now, DoReqOutcome.panicked p) ∧
    (rw.span now ≤ 0 →
      ((rw.Add 0 now).win.buckets (rw.offset.tmod rw.win.size)).Count
        = (rw.win.buckets (rw.offset.tmod rw.win.size)).Count + 1 ∧
      ((rw.Add 0 now).win.buckets (rw.offset.tmod rw.win.size)).Sum
        = (rw.win.buckets (rw.offset.tmod rw.win.size)).Sum ∧
      ∀ j, j ≠ rw.offset.tmod rw.win.size →
        (rw.Add 0 now).win.buckets j = rw.win.buckets j) := by
  constructor
  · unfold doReq
    rw [hacc]
    rfl
  · intro hsp
    rw [Add_of_span_nonpos rw 0 now hsp]
    refine ⟨?_, ?_, ?_⟩
    · show ((rw.win.add rw.offset 0).buckets (rw.offset.tmod rw.win.size)).Count = _
      unfold Window.add Bucket.add
      simp
    · show ((rw.win.add rw.offset 0).buckets (rw.offset.tmod rw.win.size)).Sum = _
      unfold Window.add Bucket.add
      simp
    · intro j hj
      show (rw.win.add rw.offset 0).buckets j = _
      unfold Window.add
      simp [hj]

/-- Witness for C7: a fresh 2-bucket window, an always-false gate, and a
request that panics with fault value 37. -/
theorem c7_witness :
    googleAccept (initialWindow 2 10 0 false) 3 (fun _ => false) = true ∧
    (initialWindow 2 10 0 false).span 3 ≤ 0 ∧
    doReq (initialWindow 2 10 0 false) 3 (fun _ => false)
        (ReqBehavior.panics (37 : ℕ)) none (fun e => e.isNone)
      = ((initialWindow 2 10 0 false).Add 0 3, DoReqOutcome.panicked 37) ∧
    (((initialWindow 2 10 0 false).Add 0 3).win.buckets 0).Count
      = ((initialWindow 2 10 0 false).win.buckets 0).Count + 1 :=
  ⟨googleAccept_fresh (fun _ => false), by decide,
    (c7_panic_marks_failure_then_propagates (initialWindow 2 10 0 false) 3
      (fun _ => false) none (fun e => e.isNone) 37
      (googleAccept_fresh (fun _ => false))).1,
    ((c7_panic_marks_failure_then_propagates (initialWindow 2 10 0 false) 3
      (fun _ => false) none (fun e => e.isNone) 37
      (googleAccept_fresh (fun _ => false))).2 (by decide)).1⟩

/-- C9: read paths never mutate the window: an admission rejection leaves the
rolling-window state exactly as it was (no failure is recorded), and repeated
`history()` calls (each one a `Reduce`) with no intervening `Add` and no
elapsed relative time leave the state unchanged and return identical
aggregates each time. -/
theorem c9_rejection_frame_and_reduce_idempotent {P : Type} (rw : RollingWindow)
    (now : ℤ) (gate : ℚ → Bool) (req : ReqBehavior P)
    (fallback : Option (Option GoErr → Option GoErr))
    (acceptable : Option GoErr → Bool)
    (hrej : googleAccept rw now gate = false) :
    (doReq rw now gate req fallback acceptable).1 = rw ∧
    ∀ n : ℕ, (historyIter now n rw).1 = rw ∧
      (historyIter now n rw).2 = List.replicate n (googleHistory rw now) := by
  constructor
  · unfold doReq
    rw [hrej]
    cases fallback <;> rfl
  · intro n
    induction n with
    | zero => exact ⟨rfl, rfl⟩
    | succ n ih =>
      refine ⟨ih.1, ?_⟩
      show googleHistory rw now :: (historyIter now n rw).2 = _
      rw [ih.2, List.replicate_succ]

/-- Witness for C9: the six-failure window with an always-true gate (so
`accept()` rejects), and three successive `history()` calls. -/
theorem c9_witness :
    googleAccept failWindow6 0 (fun _ => true) = false ∧
    (doReq failWindow6 0 (fun _ => true) (ReqBehavior.ret (P := ℕ) none) none
        (fun e => e.isNone)).1 = failWindow6 ∧
    (historyIter 0 3 failWindow6).1 = failWindow6 ∧
    (historyIter 0 3 failWindow6).2
      = List.replicate 3 (googleHistory failWindow6 0) :=
  ⟨googleAccept_failWindow6 (fun _ => true) rfl,
    (c9_rejection_frame_and_reduce_idempotent failWindow6 0 (fun _ => true)
      (ReqBehavior.ret none) none (fun e => e.isNone)
      (googleAccept_failWindow6 (fun _ => true) rfl)).1,
    ((c9_rejection_frame_and_reduce_idempotent failWindow6 0 (fun _ => true)
      (ReqBehavior.ret (P := ℕ) none) none (fun e => e.isNone)
      (googleAccept_failWindow6 (fun _ => true) rfl)).2 3).1,
    ((c9_rejection_frame_and_reduce_idempotent failWindow6 0 (fun _ => true)
      (ReqBehavior.ret (P := ℕ) none) none (fun e => e.isNone)
      (googleAccept_failWindow6 (fun _ => true) rfl)).2 3).2⟩

/-! ## C8 machinery -/

theorem ratTrunc_eq_floor (q : ℚ) (h : 0 ≤ q) : ratTrunc q = ⌊q⌋ := by
  rw [Rat.floor_def]
  exact Int.tdiv_eq_ediv (Rat.num_nonneg.mpr h) (Int.natCast_nonneg _)

theorem ratTrunc_add_one (q : ℚ) (h : 0 ≤ q) :
    ratTrunc (q + 1) = ratTrunc q + 1 := by
  rw [ratTrunc_eq_floor q h, ratTrunc_eq_floor (q + 1) (by linarith),
    Int.floor_add_one]

theorem idx_last (off s : ℤ) (t : ℕ) (hs : s = (t : ℤ) + 1) (ho : 0 ≤ off) :
    ((off + 1).tmod s + (t : ℤ)).tmod s = off.tmod s := by
  have h1 : (0 : ℤ) < s := by omega
  rw [@Int.tmod_eq_emod (off + 1) s (by omega) h1.le,
    @Int.tmod_eq_emod ((off + 1) % s + (t : ℤ)) s
      (add_nonneg (Int.emod_nonneg _ h1.ne') (Int.natCast_nonneg t)) h1.le,
    @Int.tmod_eq_emod off s ho h1.le,
    Int.emod_add_emod]
  have h2 : off + 1 + (t : ℤ) = off + s * 1 := by omega
  rw [h2, Int.add_mul_emod_self_left]

theorem idx_ne (off s : ℤ) (t i : ℕ) (hs : s = (t : ℤ) + 1) (ho : 0 ≤ off)
    (hi : i < t) : ((off + 1).tmod s + (i : ℤ)).tmod s ≠ off.tmod s := by
  have h1 : (0 : ℤ) < s := by omega
  rw [@Int.tmod_eq_emod (off + 1) s (by omega) h1.le,
    @Int.tmod_eq_emod ((off + 1) % s + (i : ℤ)) s
      (add_nonneg (Int.emod_nonneg _ h1.ne') (Int.natCast_nonneg i)) h1.le,
    @Int.tmod_eq_emod off s ho h1.le,
    Int.emod_add_emod]
  intro hcontra
  have hmod : off + 1 + (i : ℤ) ≡ off [ZMOD s] := hcontra
  have hdvd : s ∣ -(1 + (i : ℤ)) := by
    have := hmod.dvd
    have h3 : off - (off + 1 + (i : ℤ)) = -(1 + (i : ℤ)) := by ring
    rwa [h3] at this
  have hdvd' : s ∣ 1 + (i : ℤ) := (dvd_neg).mp hdvd
  have := Int.le_of_dvd (by omega) hdvd'
  omega

theorem window_add_at (w : Window) (off : ℤ) (v : ℚ) :
    (w.add off v).buckets (off.tmod w.size)
      = (w.buckets (off.tmod w.size)).add v := by
  unfold Window.add
  simp

theorem window_add_ne (w : Window) (off : ℤ) (v : ℚ) (j : ℤ)
    (hj : j ≠ off.tmod w.size) : (w.add off v).buckets j = w.buckets j := by
  unfold Window.add
  simp [hj]

/-- Effect of one `window.add` on a full-circle `reduce`: the visited list
covers every bucket exactly once, so any additive aggregate changes exactly
by the change of the written bucket. -/
theorem reduceList_add_full (w : Window) (off : ℤ) (v : ℚ) (F : Bucket → ℤ)
    (t : ℕ) (hsize : w.size = (t : ℤ) + 1) (ho : 0 ≤ off) :
    (((w.add off v).reduceList ((off + 1).tmod w.size) w.size).map F).sum
      = ((w.reduceList ((off + 1).tmod w.size) w.size).map F).sum
        + F ((w.buckets (off.tmod w.size)).add v)
        - F (w.buckets (off.tmod w.size)) := by
  have htn : w.size.toNat = t + 1 := by omega
  show (((w.add off v).reduceList ((off + 1).tmod w.size) w.size).map F).sum = _
  unfold Window.reduceList
  show ((List.map _ (List.range w.size.toNat)).map F).sum = _
  rw [htn, List.map_map, List.map_map, List.range_succ, List.map_append,
    List.map_append, List.sum_append, List.sum_append]
  have hlast : ((off + 1).tmod w.size + ((t : ℕ) : ℤ)).tmod w.size
      = off.tmod w.size := idx_last off w.size t hsize ho
  have hcong : List.map (F ∘ fun i : ℕ =>
        (w.add off v).buckets (((off + 1).tmod w.size + (i : ℤ)).tmod w.size))
        (List.range t)
      = List.map (F ∘ fun i : ℕ =>
        w.buckets (((off + 1).tmod w.size + (i : ℤ)).tmod w.size))
        (List.range t) := by
    apply List.map_congr_left
    intro i hi
    have hne := idx_ne off w.size t i hsize ho (List.mem_range.mp hi)
    simp only [Function.comp_apply]
    rw [window_add_ne w off v _ hne]
  simp only [show (w.add off v).size = w.size from rfl]
  rw [hcong]
  simp only [List.map_cons, List.map_nil, List.sum_cons, List.sum_nil,
    Function.comp_apply]
  rw [hlast, window_add_at]
  ring

/-- With `span = 0` and `ignoreCurrent` unset, `Reduce` makes a full circle:
all `size` buckets starting at `(offset+1) mod size`. -/
theorem reduceBuckets_span_zero (rw : RollingWindow) (now : ℤ)
    (hsp : rw.span now = 0) (hig : rw.ignoreCurrent = false) (hs : 1 ≤ rw.size) :
    rw.reduceBuckets now
      = rw.win.reduceList ((rw.offset + 1).tmod rw.size) rw.size := by
  simp only [RollingWindow.reduceBuckets, hsp, hig]
  norm_num
  intro h
  exact absurd h (by omega)

/-- `markSuccess` within the current bucket interval bumps both history
components by exactly one. -/
theorem history_after_success (rw : RollingWindow) (now : ℤ)
    (hsp : rw.span now = 0) (hig : rw.ignoreCurrent = false)
    (hws : rw.win.size = rw.size) (hs : 1 ≤ rw.size) (ho : 0 ≤ rw.offset)
    (hsum : 0 ≤ (rw.win.buckets (rw.offset.tmod rw.size)).Sum) :
    googleHistory (rw.Add 1 now) now
      = ((googleHistory rw now).1 + 1, (googleHistory rw now).2 + 1) := by
  have hAdd : rw.Add 1 now = { rw with win := rw.win.add rw.offset 1 } :=
    Add_of_span_nonpos rw 1 now (le_of_eq hsp)
  have hred : rw.reduceBuckets now
      = rw.win.reduceList ((rw.offset + 1).tmod rw.size) rw.size :=
    reduceBuckets_span_zero rw now hsp hig hs
  have hsp' : ({ rw with win := rw.win.add rw.offset 1 } : RollingWindow).span now = 0 := hsp
  have hred' : ({ rw with win := rw.win.add rw.offset 1 } : RollingWindow).reduceBuckets now
      = (rw.win.add rw.offset 1).reduceList ((rw.offset + 1).tmod rw.size) rw.size :=
    reduceBuckets_span_zero _ now hsp' hig hs
  obtain ⟨t, ht⟩ : ∃ t : ℕ, rw.size.toNat = t + 1 := ⟨rw.size.toNat - 1, by omega⟩
  have hsize : rw.win.size = (t : ℤ) + 1 := by omega
  rw [hAdd, googleHistory_eq_sums, googleHistory_eq_sums, hred, hred']
  rw [← hws] at hsum ⊢
  have hfull1 := reduceList_add_full rw.win rw.offset 1
    (fun b => ratTrunc b.Sum) t hsize ho
  have hfull2 := reduceList_add_full rw.win rw.offset 1
    (fun b => b.Count) t hsize ho
  have hb : ratTrunc ((rw.win.buckets (rw.offset.tmod rw.win.size)).add 1).Sum
      = ratTrunc (rw.win.buckets (rw.offset.tmod rw.win.size)).Sum + 1 := by
    show ratTrunc ((rw.win.buckets (rw.offset.tmod rw.win.size)).Sum + 1) = _
    exact ratTrunc_add_one _ hsum
  have hb2 : ((rw.win.buckets (rw.offset.tmod rw.win.size)).add 1).Count
      = (rw.win.buckets (rw.offset.tmod rw.win.size)).Count + 1 := rfl
  simp only at hfull1 hfull2 ⊢
  rw [Prod.mk.injEq]
  constructor
  · rw [hfull1, hb]
    ring
  · rw [hfull2, hb2]
    ring

/-- C8: for an admitted request returning error `e`: if `acceptable(e)` holds,
`doReq` records exactly one success (`Add(1)`) and returns `e` unchanged with
the fallback never invoked; if `acceptable(e)` fails it records exactly one
failure (`Add(0)`) and still returns `e` unchanged; and, within the same
bucket interval, a subsequent `history()` after a success reflects
`accepts += 1, total += 1`. -/
theorem c8_outcome_classification {P : Type} (rw : RollingWindow) (now : ℤ)
    (gate : ℚ → Bool) (fallback : Option (Option GoErr → Option GoErr))
    (acceptable : Option GoErr → Bool) (e : Option GoErr)
    (hacc : googleAccept rw now gate = true) :
    (acceptable e = true →
      doReq (P := P) rw now gate (ReqBehavior.ret e) fallback acceptable
        = (rw.Add 1 now, DoReqOutcome.returned e)) ∧
    (acceptable e = false →
      doReq (P := P) rw now gate (ReqBehavior.ret e) fallback acceptable
        = (rw.Add 0 now, DoReqOutcome.returned e)) ∧
    (rw.span now = 0 → rw.ignoreCurrent = false → rw.win.size = rw.size →
      1 ≤ rw.size → 0 ≤ rw.offset →
      0 ≤ (rw.win.buckets (rw.offset.tmod rw.size)).Sum →
      googleHistory (rw.Add 1 now) now
        = ((googleHistory rw now).1 + 1, (googleHistory rw now).2 + 1)) := by
  refine ⟨?_, ?_, history_after_success rw now⟩
  · intro ha
    unfold doReq
    rw [hacc]
    show (if acceptable e = true then (markSuccess rw now, DoReqOutcome.returned e)
          else (markFailure rw now, DoReqOutcome.returned e)) = _
    rw [ha]
    rfl
  · intro ha
    unfold doReq
    rw [hacc]
    show (if acceptable e = true then (markSuccess rw now, DoReqOutcome.returned e)
          else (markFailure rw now, DoReqOutcome.returned e)) = _
    rw [ha]
    rfl

/-- Witness for C8: a fresh 2-bucket window, an always-false gate, a request
returning `nil`, and the default acceptable predicate (`true` iff no
error). -/
theorem c8_witness :
    googleAccept (initialWindow 2 10 0 false) 3 (fun _ => false) = true ∧
    (fun e : Option GoErr => e.isNone) none = true ∧
    doReq (P := ℕ) (initialWindow 2 10 0 false) 3 (fun _ => false)
        (ReqBehavior.ret none) none (fun e => e.isNone)
      = ((initialWindow 2 10 0 false).Add 1 3, DoReqOutcome.returned none) ∧
    googleHistory ((initialWindow 2 10 0 false).Add 1 3) 3
      = ((googleHistory (initialWindow 2 10 0 false) 3).1 + 1,
         (googleHistory (initialWindow 2 10 0 false) 3).2 + 1) :=
  ⟨googleAccept_fresh (fun _ => false), rfl,
    (c8_outcome_classification (P := ℕ) (initialWindow 2 10 0 false) 3
      (fun _ => false) none (fun e => e.isNone) none
      (googleAccept_fresh (fun _ => false))).1 rfl,
    ((c8_outcome_classification (P := ℕ) (initialWindow 2 10 0 false) 3
      (fun _ => false) none (fun e => e.isNone) none
      (googleAccept_fresh (fun _ => false))).2.2 (by decide) rfl rfl
      (by decide) (by decide) (by decide))⟩
